import Mathlib

/-!
Shallow embedding of the better-logs batching Postgres sink (package
`pgcore`: the `core` zap core, its background `loop`/`flush`, `Write`,
`With`, `Check`, `Enabled`, `New` and the returned close function) and of
the top-level logger constructor (`betterlogs.New`), together with proofs
about the spec's claims.

Machine-level conventions: JSON numbers are carried abstractly (the Go
code only ever type-asserts values to `string`, so their exact numeric
value is irrelevant); `json.Unmarshal(line, &map)` is modelled by each
payload line carrying the optional object it parses to; channels are
modelled as FIFO lists; the worker's `select` nondeterminism is modelled
by an explicit schedule of resolutions.
-/

namespace BetterLogs

/-- Values of a decoded JSON object (Go `map[string]any` entries after
`json.Unmarshal`): strings, numbers (abstract), booleans, null, arrays and
nested objects. The flush code only type-asserts to `string`. -/
inductive JVal where
  | jstr : String → JVal
  | jnum : Int → JVal
  | jbool : Bool → JVal
  | jnull : JVal
  | jarr : List JVal → JVal
  | jobj : List (String × JVal) → JVal

/-- An encoded payload line as it sits in the channel: the raw bytes
(`string(line)`) plus the result of `json.Unmarshal(line, &tmp)` into a
`map[string]any` — `none` when the line is not parseable as a JSON object.
Keys of a decoded Go map are unique. -/
structure Line where
  raw : String
  json : Option (List (String × JVal))

/-- Go type assertion `v.(string)`. -/
def asString : JVal → Option String
  | JVal.jstr s => some s
  | _ => none

/-- The correlation-id scan inside `(*core).loop`'s flush: iterate
`c.reqKeys` in order; for the first key present in the map whose value is
a non-empty string, take it and break; otherwise the id stays `""`. -/
def extractReqID (keys : List String) (tmp : List (String × JVal)) : String :=
  match keys with
  | [] => ""
  | k :: ks =>
    match tmp.lookup k with
    | some v =>
      match asString v with
      | some s => if s = "" then extractReqID ks tmp else s
      | none => extractReqID ks tmp
    | none => extractReqID ks tmp

/-- Spec-side characterisation of CorrelationID (spec §3): scan
CorrelationIDKeys in order and take the first non-empty string value
found. -/
def firstNonEmptyString (keys : List String) (tmp : List (String × JVal)) : Option String :=
  keys.findSome? fun k =>
    match tmp.lookup k with
    | some (JVal.jstr s) => if s = "" then none else some s
    | _ => none

/-- Outcomes of the database calls a single flush makes. The final COPY
`stmt.Exec()`, `stmt.Close()` and `tx.Commit()` errors are only logged by
the code and alter no control flow or state, so they carry no flag here;
`rowExecOk i` tells whether the i-th row submission (counting only
submitted rows) returns an error. -/
structure DbBehavior where
  beginOk : Bool
  prepareOk : Bool
  rowExecOk : Nat → Bool

/-- What one call of the closure `flush` inside `(*core).loop` does:
the batch it leaves behind, the `(req_id, raw)` rows submitted to the COPY
statement in order, how many row submissions errored (each logged), and
whether the finalize (`stmt.Exec()`), `tx.Commit()` and `tx.Rollback()`
steps were reached. -/
structure FlushOutcome where
  batch : List Line
  attempted : List (String × String)
  rowFailures : Nat
  finalized : Bool
  committed : Bool
  rolledBack : Bool

/-- The per-payload loop of flush: lines failing `json.Unmarshal` are
skipped (`continue` — "Ignore non-JSON lines"); for the rest,
`stmt.Exec(reqID, string(line))` is called, an error being logged and the
loop continuing. `i` counts submitted rows for `rowExecOk`. -/
def copyLoop (keys : List String) (rowOk : Nat → Bool) (i : Nat) :
    List Line → List (String × String) × Nat
  | [] => ([], 0)
  | l :: ls =>
    match l.json with
    | none => copyLoop keys rowOk i ls
    | some tmp =>
      let rest := copyLoop keys rowOk (i + 1) ls
      ((extractReqID keys tmp, l.raw) :: rest.1, (if rowOk i then 0 else 1) + rest.2)

/-- The `flush` closure of `(*core).loop`: empty batch is a no-op; a
`db.Begin` error logs and resets the batch; a `tx.Prepare(pq.CopyIn(...))`
error rolls back, logs and resets the batch; otherwise every parseable
line is streamed with its extracted req_id, then finalize, close and
commit run (their errors only logged), and the batch is reset
(`batch = batch[:0]`). -/
def flush (beh : DbBehavior) (keys : List String) (batch : List Line) : FlushOutcome :=
  match batch with
  | [] =>
    { batch := [], attempted := [], rowFailures := 0
      finalized := false, committed := false, rolledBack := false }
  | _ :: _ =>
    if beh.beginOk = false then
      { batch := [], attempted := [], rowFailures := 0
        finalized := false, committed := false, rolledBack := false }
    else if beh.prepareOk = false then
      { batch := [], attempted := [], rowFailures := 0
        finalized := false, committed := false, rolledBack := true }
    else
      let rows := copyLoop keys beh.rowExecOk 0 batch
      { batch := [], attempted := rows.1, rowFailures := rows.2
        finalized := true, committed := true, rolledBack := false }

/-- A database that accepts everything. -/
def allOk : DbBehavior := { beginOk := true, prepareOk := true, rowExecOk := fun _ => true }

/-- The default `RequestIDKeys` installed by `pgcore.New` when the config
leaves them empty. -/
def defaultReqKeys : List String :=
  ["request_id", "req_id", "correlation_id", "X-Request-ID", "X-Correlation-ID", "requestid"]

/-- The row a line contributes to a flush, if any. -/
def rowOf (keys : List String) (l : Line) : Option (String × String) :=
  l.json.map fun tmp => (extractReqID keys tmp, l.raw)

theorem copyLoop_fst (keys : List String) (rowOk : Nat → Bool) (ls : List Line) :
    ∀ i, (copyLoop keys rowOk i ls).1 = ls.filterMap (rowOf keys) := by
  induction ls with
  | nil => intro i; rfl
  | cons l ls ih =>
    intro i
    cases hj : l.json with
    | none => simp [copyLoop, hj, List.filterMap_cons, rowOf, ih i]
    | some tmp => simp [copyLoop, hj, List.filterMap_cons, rowOf, ih (i + 1)]

theorem flush_attempted (beh : DbBehavior) (keys : List String) (batch : List Line)
    (hb : beh.beginOk = true) (hp : beh.prepareOk = true) :
    (flush beh keys batch).attempted = batch.filterMap (rowOf keys) := by
  cases batch with
  | nil => rfl
  | cons l ls => simp [flush, hb, hp, copyLoop_fst]

/-- One resolution of the `select` in `(*core).loop`. `stop` is ready once
the close function has run `close(c.stop)`; `recv` is ready while the
channel holds a payload; `tick` is the `ticker.C` case. A schedule of
resolutions makes the nondeterministic select explicit. -/
inductive Choice where
  | stop
  | recv
  | tick

/-- Worker-visible state: the channel contents (`c.ch`, FIFO), the
accumulated batch, and the rows streamed to the store by completed
flushes. -/
structure LoopState where
  queue : List Line
  batch : List Line
  store : List (String × String)

/-- Run the flush closure from a loop state: the batch is replaced by what
flush leaves, submitted rows land in the store. -/
def loopFlush (beh : DbBehavior) (keys : List String) (st : LoopState) : LoopState :=
  let out := flush beh keys st.batch
  { queue := st.queue, batch := out.batch, store := st.store ++ out.attempted }

/-- The `for { select { ... } }` of `(*core).loop`, driven by a schedule of
select resolutions. On `stop`: flush the accumulated batch and return —
the code has no drain of `c.ch`. On `recv`: append the received payload to
the batch and flush if `len(batch) >= c.batchSize`. On `tick`: flush. The
Bool is true when the loop has returned. -/
def runLoop (beh : DbBehavior) (keys : List String) (batchSize : Nat) :
    List Choice → LoopState → LoopState × Bool
  | [], st => (st, false)
  | Choice.stop :: _, st => (loopFlush beh keys st, true)
  | Choice.recv :: cs, st =>
    match st.queue with
    | [] => runLoop beh keys batchSize cs st
    | l :: rest =>
      let grown : LoopState := { queue := rest, batch := st.batch ++ [l], store := st.store }
      runLoop beh keys batchSize cs
        (if batchSize ≤ grown.batch.length then loopFlush beh keys grown else grown)
  | Choice.tick :: cs, st => runLoop beh keys batchSize cs (loopFlush beh keys st)

/-- The non-blocking send in `(*core).Write`:
`select { case c.ch <- b: default: log drop }` on a channel created with
capacity `bufferSize`. A full channel drops the new payload. -/
def enqueue (bufferSize : Nat) (queue : List Line) (b : Line) : List Line :=
  if queue.length < bufferSize then queue ++ [b] else queue

/-- `(*core).Write`: encode the entry; on an encoding error return it to
the caller; otherwise copy the buffer, enqueue non-blockingly (dropping on
a full buffer with only a diagnostic log) and return nil. The resulting
channel contents and the returned error. -/
def coreWrite (bufferSize : Nat) (queue : List Line) (encoded : Except String Line) :
    List Line × Option String :=
  match encoded with
  | Except.error e => (queue, some e)
  | Except.ok b => (enqueue bufferSize queue b, none)

/-- Enqueue a sequence of payloads with no draining in between. -/
def enqueueAll (bufferSize : Nat) (queue : List Line) : List Line → List Line
  | [] => queue
  | b :: bs => enqueueAll bufferSize (enqueue bufferSize queue b) bs

theorem enqueueAll_eq (bufferSize : Nat) (ps : List Line) :
    ∀ queue : List Line, queue.length ≤ bufferSize →
      enqueueAll bufferSize queue ps = queue ++ ps.take (bufferSize - queue.length) := by
  induction ps with
  | nil => intro queue _; simp [enqueueAll]
  | cons b bs ih =>
    intro queue hq
    by_cases hlt : queue.length < bufferSize
    · have h1 : (queue ++ [b]).length ≤ bufferSize := by
        simp [List.length_append]; omega
      have hsub : bufferSize - queue.length = (bufferSize - (queue.length + 1)) + 1 := by omega
      simp only [enqueueAll, enqueue, if_pos hlt, ih (queue ++ [b]) h1]
      simp [List.length_append, hsub, List.take_succ_cons, List.append_assoc]
    · have heq : bufferSize - queue.length = 0 := by omega
      have hq2 : bufferSize = queue.length := by omega
      simp only [enqueueAll, enqueue, if_neg hlt, ih queue hq]
      simp [heq]

/-- The runtime state of a Go channel for `close` semantics. -/
inductive ChanState where
  | opened
  | closed

/-- Go runtime semantics of `close(ch)`: closing an open channel succeeds;
closing an already-closed channel panics ("close of closed channel"). -/
def closeChan : ChanState → Except String ChanState
  | ChanState.opened => Except.ok ChanState.closed
  | ChanState.closed => Except.error "close of closed channel"

/-- The close function returned by `pgcore.New`, up to its only
state-changing step: it unconditionally runs `close(c.stop)` (no guard, no
sync.Once), then merely waits for the worker or the context deadline. -/
def closeFn (stop : ChanState) : Except String ChanState :=
  closeChan stop

/-- Static-field state bound into an encoder (zapcore fields added by
`AddTo`). -/
abbrev Field := String × JVal

/-- zapcore levels as integers: Debug = -1 up to Fatal = 5;
`Level.Enabled(lvl)` is `lvl >= l`. -/
abbrev Level := Int

def debugLevel : Level := -1
def infoLevel : Level := 0
def warnLevel : Level := 1
def errorLevel : Level := 2
def fatalLevel : Level := 5

/-- `zapcore.Level.Enabled`: a record at `lvl` passes a threshold `l`
exactly when `lvl >= l`. -/
def levelEnabled (threshold lvl : Level) : Bool :=
  decide (threshold ≤ lvl)

/-- The `core` struct of pgcore: encoder static-field state, level
threshold, and the shared runtime resources — database handle, payload
channel and stop channel (modelled by identity tokens), batch size, max
wait and the correlation key list. The `sync.WaitGroup` is deliberately
not part of a clone's shared state (the code never copies it). -/
structure Core where
  enc : List Field
  level : Level
  db : Nat
  ch : Nat
  stop : Nat
  batchSize : Nat
  maxWait : Nat
  reqKeys : List String

/-- `(*core).Enabled`: delegate to the level threshold. -/
def coreEnabled (c : Core) (lvl : Level) : Bool :=
  levelEnabled c.level lvl

/-- `(*core).Check`: add this core to the checked entry iff enabled. The
checked entry is modelled by the list of cores that will receive the
write. -/
def coreCheck (c : Core) (lvl : Level) (ce : List Core) : List Core :=
  if coreEnabled c lvl then ce ++ [c] else ce

/-- `zapcore.Encoder.Clone` on the static-field state. -/
def encClone (enc : List Field) : List Field := enc

/-- `(*core).With`: build a new core sharing db, channels, batch size, max
wait and key list, with a cloned encoder to which each field is added; the
WaitGroup is not copied and no goroutine is started. -/
def coreWith (c : Core) (fields : List Field) : Core :=
  { enc := encClone c.enc ++ fields, level := c.level, db := c.db, ch := c.ch
    stop := c.stop, batchSize := c.batchSize, maxWait := c.maxWait, reqKeys := c.reqKeys }

/-- The sinks `betterlogs.New` composes. -/
inductive SinkKind where
  | console
  | postgres

/-- The inputs of `betterlogs.New` that decide construction success:
whether a stdout core is requested, whether the Postgres core is requested
and whether a database handle is present (`cfg.DB != nil`). -/
structure LoggerConfig where
  serviceName : String
  dbPresent : Bool
  level : Level
  stdout : Bool
  enablePostgres : Bool

/-- `betterlogs.New`: collect a console core when `Stdout`, then — when
`EnablePostgres` — fail if `DB` is nil, else add the Postgres core
(`pgcore.New` itself never returns an error); finally fail when no core
was collected. On error no logger is returned. -/
def loggerNew (cfg : LoggerConfig) : Except String (List SinkKind) :=
  let cores : List SinkKind := if cfg.stdout then [SinkKind.console] else []
  match (if cfg.enablePostgres then
          (if cfg.dbPresent then Except.ok (cores ++ [SinkKind.postgres])
           else Except.error "better-logs: EnablePostgres is true but DB is nil")
         else Except.ok cores : Except String (List SinkKind)) with
  | Except.error e => Except.error e
  | Except.ok allCores =>
    if allCores.isEmpty then
      Except.error "better-logs: no logging core enabled (Stdout=false and EnablePostgres=false)"
    else Except.ok allCores

/-- Whether an `Except` is the error case. -/
def exceptIsError : Except String (List SinkKind) → Bool
  | Except.error _ => true
  | Except.ok _ => false

theorem extractReqID_eq (keys : List String) (tmp : List (String × JVal)) :
    extractReqID keys tmp = (firstNonEmptyString keys tmp).getD "" := by
  induction keys with
  | nil => rfl
  | cons k ks ih =>
    rw [firstNonEmptyString, List.findSome?_cons]
    cases hl : tmp.lookup k with
    | none =>
      simp only [extractReqID, hl]
      rw [ih, firstNonEmptyString]
    | some v =>
      cases v with
      | jstr s =>
        by_cases hs : s = ""
        · subst hs
          simpa [extractReqID, hl, asString, firstNonEmptyString] using ih
        · simp only [extractReqID, hl, asString, if_neg hs]
          simp [hs]
      | jnum n => simpa [extractReqID, hl, asString, firstNonEmptyString] using ih
      | jbool b => simpa [extractReqID, hl, asString, firstNonEmptyString] using ih
      | jnull => simpa [extractReqID, hl, asString, firstNonEmptyString] using ih
      | jarr a => simpa [extractReqID, hl, asString, firstNonEmptyString] using ih
      | jobj o => simpa [extractReqID, hl, asString, firstNonEmptyString] using ih

theorem flush_batch_nil (beh : DbBehavior) (keys : List String) (batch : List Line) :
    (flush beh keys batch).batch = [] := by
  cases batch with
  | nil => rfl
  | cons l ls =>
    simp only [flush]
    by_cases h1 : beh.beginOk = false
    · simp [h1]
    · by_cases h2 : beh.prepareOk = false
      · simp [h1, h2]
      · simp [h1, h2]

/-- A payload sitting in the channel at shutdown: an encoded entry with no
correlation key. -/
def lineMsg : Line := { raw := "x", json := some [("msg", JVal.jstr "hello")] }

/-- A payload that failed to parse as a JSON object. -/
def lineBad : Line := { raw := "oops", json := none }

/-- A parseable payload with an empty field map. -/
def lineEmptyMap : Line := { raw := "p", json := some [] }

/-- A parseable payload carrying a req_id. -/
def lineA : Line := { raw := "a", json := some [("req_id", JVal.jstr "r1")] }

/-- A parseable payload with no correlation key. -/
def lineB : Line := { raw := "b", json := some [] }

/-- A core configured at the Warn threshold. -/
def warnCore : Core :=
  { enc := [], level := warnLevel, db := 0, ch := 0, stop := 0
    batchSize := 1000, maxWait := 2, reqKeys := defaultReqKeys }

/-- C1: the claim that shutdown with an unbounded deadline flushes every
successfully enqueued record is violated: when the worker's select
resolves the stop case while a record still sits in the channel (schedule
`[stop]`), the loop flushes only its accumulated batch and returns, the
store stays empty and the record stays in the channel unflushed — even
though the alternative schedule `[recv, stop]` would have persisted it.
This contradicts `pgcore.New`'s own doc comment ("waits for pending logs
to be flushed") and the package's persistence test. -/
theorem stop_without_drain_loses_enqueued_record :
    (runLoop allOk defaultReqKeys 1000 [Choice.stop]
        { queue := [lineMsg], batch := [], store := [] }).2 = true
    ∧ (runLoop allOk defaultReqKeys 1000 [Choice.stop]
        { queue := [lineMsg], batch := [], store := [] }).1.store = []
    ∧ (runLoop allOk defaultReqKeys 1000 [Choice.stop]
        { queue := [lineMsg], batch := [], store := [] }).1.queue = [lineMsg]
    ∧ (runLoop allOk defaultReqKeys 1000 [Choice.recv, Choice.stop]
        { queue := [lineMsg], batch := [], store := [] }).1.store = [("", "x")] :=
  ⟨rfl, rfl, rfl, by rfl⟩

/-- C2 counterexample: a payload that is not parseable as a JSON object is
NOT inserted by flush — `(*core).loop` skips it ("Ignore non-JSON lines"),
so no row carries its raw bytes, refuting the claim that the raw payload
is still inserted with an empty correlation id. -/
theorem unparseable_payload_is_discarded :
    lineBad.json = none
    ∧ (flush allOk defaultReqKeys [lineBad]).attempted = [] :=
  ⟨rfl, rfl⟩

/-- C2 amended: payloads that are not parseable as a JSON object are
skipped during flush — they contribute no row at all (their raw bytes are
discarded), and removing such a payload from a batch leaves the flushed
rows unchanged. -/
theorem flush_skips_unparseable (beh : DbBehavior) (keys : List String)
    (pre : List Line) (rest : List Line) (bytes : String)
    (hb : beh.beginOk = true) (hp : beh.prepareOk = true) :
    (flush beh keys (pre ++ { raw := bytes, json := none } :: rest)).attempted
      = (flush beh keys (pre ++ rest)).attempted := by
  rw [flush_attempted beh keys _ hb hp, flush_attempted beh keys _ hb hp]
  simp [List.filterMap_append, List.filterMap_cons, rowOf]

theorem flush_skips_unparseable_witness :
    allOk.beginOk = true ∧ allOk.prepareOk = true
    ∧ (flush allOk defaultReqKeys
          ([lineEmptyMap] ++ { raw := "oops2", json := none } :: [])).attempted
        = (flush allOk defaultReqKeys ([lineEmptyMap] ++ [])).attempted :=
  ⟨rfl, rfl, flush_skips_unparseable allOk defaultReqKeys [lineEmptyMap] [] "oops2" rfl rfl⟩

/-- C3: the correlation id extracted during flush is the first non-empty
string value among the configured keys in order (empty when none
qualifies, since `getD ""`); in particular with keys
[request_id, req_id] and payload mapping request_id to "" and req_id to
"xyz", the extracted id — and the req_id column of the flushed row — is
"xyz". -/
theorem correlation_id_first_nonempty (keys : List String) (tmp : List (String × JVal)) :
    extractReqID keys tmp = (firstNonEmptyString keys tmp).getD ""
    ∧ extractReqID ["request_id", "req_id"]
        [("request_id", JVal.jstr ""), ("req_id", JVal.jstr "xyz")] = "xyz"
    ∧ (flush allOk ["request_id", "req_id"]
        [{ raw := "p2", json := some [("request_id", JVal.jstr ""), ("req_id", JVal.jstr "xyz")] }]).attempted
      = [("xyz", "p2")] :=
  ⟨extractReqID_eq keys tmp, rfl, rfl⟩

/-- C4: after successful encoding, Write never returns an error; below
capacity the payload is appended preserving arrival order, at capacity the
new payload (not the oldest) is dropped; hence enqueuing any sequence into
an empty queue of capacity N keeps exactly the first N in arrival
order. -/
theorem write_nonblocking_drop_new (bufferSize : Nat) (queue : List Line) (b : Line)
    (ps : List Line) :
    (coreWrite bufferSize queue (Except.ok b)).2 = none
    ∧ (coreWrite bufferSize queue (Except.ok b)).1
        = (if queue.length < bufferSize then queue ++ [b] else queue)
    ∧ enqueueAll bufferSize [] ps = ps.take bufferSize := by
  refine ⟨rfl, rfl, ?_⟩
  simpa using enqueueAll_eq bufferSize ps [] (by simp)

/-- C5: every exit path of flush — empty batch, begin failure, prepare
failure, row failures, full success — leaves the batch empty, and the
worker's flush step never requeues batch content. -/
theorem flush_always_resets_batch (beh : DbBehavior) (keys : List String)
    (batch : List Line) (st : LoopState) :
    (flush beh keys batch).batch = []
    ∧ (loopFlush beh keys st).batch = [] :=
  ⟨flush_batch_nil beh keys batch, flush_batch_nil beh keys st.batch⟩

/-- C6: with the transaction open (begin and prepare succeeded), the rows
submitted by flush do not depend on which row inserts fail — every
parseable payload is still attempted — and the finalize and commit steps
still run, with no rollback. -/
theorem row_insert_failure_does_not_abort (keys : List String) (batch : List Line)
    (rowOk rowOk2 : Nat → Bool) (hne : batch ≠ []) :
    (flush ⟨true, true, rowOk⟩ keys batch).attempted
        = (flush ⟨true, true, rowOk2⟩ keys batch).attempted
    ∧ (flush ⟨true, true, rowOk⟩ keys batch).attempted = batch.filterMap (rowOf keys)
    ∧ (flush ⟨true, true, rowOk⟩ keys batch).finalized = true
    ∧ (flush ⟨true, true, rowOk⟩ keys batch).committed = true
    ∧ (flush ⟨true, true, rowOk⟩ keys batch).rolledBack = false := by
  cases batch with
  | nil => exact absurd rfl hne
  | cons l ls =>
    have h1 := copyLoop_fst keys rowOk (l :: ls) 0
    have h2 := copyLoop_fst keys rowOk2 (l :: ls) 0
    exact ⟨h1.trans h2.symm, h1, rfl, rfl, rfl⟩

theorem row_insert_failure_witness :
    ([lineA, lineB] : List Line) ≠ []
    ∧ (flush ⟨true, true, fun i => decide (i ≠ 0)⟩ defaultReqKeys [lineA, lineB]).attempted
        = (flush ⟨true, true, fun _ => true⟩ defaultReqKeys [lineA, lineB]).attempted
    ∧ (flush ⟨true, true, fun i => decide (i ≠ 0)⟩ defaultReqKeys [lineA, lineB]).finalized = true
    ∧ (flush ⟨true, true, fun i => decide (i ≠ 0)⟩ defaultReqKeys [lineA, lineB]).committed = true
    ∧ (flush ⟨true, true, fun i => decide (i ≠ 0)⟩ defaultReqKeys [lineA, lineB]).rolledBack
        = false := by
  have h := row_insert_failure_does_not_abort defaultReqKeys [lineA, lineB]
      (fun i => decide (i ≠ 0)) (fun _ => true) (List.cons_ne_nil _ _)
  exact ⟨List.cons_ne_nil _ _, h.1, h.2.2.1, h.2.2.2.1, h.2.2.2.2⟩

/-- C7: `betterlogs.New` fails (returning no logger) exactly when no sink
is enabled, or the Postgres sink is enabled with a nil DB; in every other
configuration construction succeeds. -/
theorem logger_construction_errors (cfg : LoggerConfig) :
    exceptIsError (loggerNew cfg) = true ↔
      (cfg.stdout = false ∧ cfg.enablePostgres = false)
      ∨ (cfg.enablePostgres = true ∧ cfg.dbPresent = false) := by
  obtain ⟨sn, dbp, lv, so, ep⟩ := cfg
  cases so <;> cases ep <;> cases dbp <;> simp [loggerNew, exceptIsError]

/-- C8: a record strictly below the configured threshold is rejected —
Enabled is false and Check adds no core, so nothing downstream sees it —
under the total order Debug < Info < Warn < Error < Fatal. -/
theorem level_filter_rejects_below_threshold (c : Core) (lvl : Level) (ce : List Core)
    (h : lvl < c.level) :
    coreEnabled c lvl = false
    ∧ coreCheck c lvl ce = ce
    ∧ (debugLevel < infoLevel ∧ infoLevel < warnLevel ∧ warnLevel < errorLevel
        ∧ errorLevel < fatalLevel) := by
  have he : coreEnabled c lvl = false := decide_eq_false (not_le.mpr h)
  exact ⟨he, by simp [coreCheck, he], by decide, by decide, by decide, by decide⟩

theorem level_filter_witness :
    infoLevel < warnCore.level
    ∧ coreEnabled warnCore infoLevel = false
    ∧ coreCheck warnCore infoLevel [] = [] := by
  have h := level_filter_rejects_below_threshold warnCore infoLevel [] (by decide)
  exact ⟨by decide, h.1, h.2.1⟩

/-- C9: `(*core).With` yields a core whose encoder is a clone of the
parent's with the fields appended, while the channel, stop channel, db
handle, batch size, max wait, key list and level are shared unchanged with
the parent; no worker or sync state is recreated. -/
theorem with_clones_encoder_shares_resources (c : Core) (fields : List Field) :
    (coreWith c fields).enc = c.enc ++ fields
    ∧ (coreWith c fields).ch = c.ch
    ∧ (coreWith c fields).stop = c.stop
    ∧ (coreWith c fields).db = c.db
    ∧ (coreWith c fields).batchSize = c.batchSize
    ∧ (coreWith c fields).maxWait = c.maxWait
    ∧ (coreWith c fields).reqKeys = c.reqKeys
    ∧ (coreWith c fields).level = c.level :=
  ⟨rfl, rfl, rfl, rfl, rfl, rfl, rfl, rfl⟩

/-- C10: the close function has no idempotence guard: the first call
closes the stop channel, and a second call — unconditionally closing an
already-closed channel — panics, per Go close semantics. -/
theorem close_second_call_panics :
    closeFn ChanState.opened = Except.ok ChanState.closed
    ∧ closeFn ChanState.closed = Except.error "close of closed channel"
    ∧ (closeFn ChanState.opened).bind closeFn = Except.error "close of closed channel" :=
  ⟨rfl, rfl, rfl⟩

end BetterLogs
